import Mathlib

/-!
Verification of the keliva conversation-companion repository.

This file gives a shallow embedding, in Lean 4, of the parts of the
repository that the verified properties talk about:

* the client-side rate limiter and the input sanitizer from
  src/frontend/src/contexts/UserContext.tsx;
* the conversation state handling from the frontend ConversationContext
  (addMessage, loadConversationHistory);
* the backend services (Knowledge Vault, Polyglot Engine, Vani Persona,
  Quota Governor).  The Python sources of these services are not part of
  the source tree (only their README documentation is), so those
  components are modelled from the specification text, as marked on each
  definition.

Strings are modelled as lists of characters so that every operation is
executable and every concrete statement is decidable.
-/

namespace Keliva

/-! ## Character-level helpers -/

/-- ASCII lower-casing of one character, as the JavaScript regular
expression flag i folds the ASCII patterns used by the sanitizer. -/
def lowerC (c : Char) : Char :=
  if 'A' ≤ c ∧ c ≤ 'Z' then Char.ofNat (c.toNat + 32) else c

/-- Word characters of the JavaScript regular-expression class backslash-w:
ASCII letters, digits and underscore. -/
def isWordChar (c : Char) : Bool :=
  ('a' ≤ c && c ≤ 'z') || ('A' ≤ c && c ≤ 'Z') || ('0' ≤ c && c ≤ '9') || c == '_'

/-- Whitespace characters (ASCII part of the JavaScript class backslash-s). -/
def isSpaceChar (c : Char) : Bool :=
  c == ' ' || c == '\t' || c == '\n' || c == '\r' || c == '\x0b' || c == '\x0c'

/-- Case-insensitive prefix test: the first argument is a lower-case
pattern, the second the text. -/
def startsWithCI : List Char → List Char → Bool
  | [], _ => true
  | _ :: _, [] => false
  | p :: ps, c :: cs => (lowerC c == p) && startsWithCI ps cs

/-- Case-insensitive substring test: does the lower-case pattern occur in
the text at some position. -/
def containsCI : List Char → List Char → Bool
  | [], pat => startsWithCI pat []
  | c :: cs, pat => startsWithCI pat (c :: cs) || containsCI cs pat

/-- Case-sensitive prefix test (pattern first). -/
def startsWithL : List Char → List Char → Bool
  | [], _ => true
  | _ :: _, [] => false
  | p :: ps, c :: cs => (c == p) && startsWithL ps cs

/-- Case-sensitive substring test (text first, pattern second). -/
def containsL : List Char → List Char → Bool
  | [], pat => startsWithL pat []
  | c :: cs, pat => startsWithL pat (c :: cs) || containsL cs pat

/-- Length of the longest prefix on which the predicate holds. -/
def countWhile (p : Char → Bool) : List Char → Nat
  | [] => 0
  | c :: cs => if p c then countWhile p cs + 1 else 0

/-- Left-to-right global removal driver, mirroring how a JavaScript global
regular-expression replacement by the empty string scans a string: at each
position the matcher either reports the length of a match, which is then
deleted and scanning resumes after it, or the character is kept.  The fuel
argument equals the initial length of the list; every step consumes at
least one character, so the fuel is never exhausted on the intended calls
(the fuel-zero branch returns the remaining text unchanged). -/
def scanRemove (m : List Char → Option Nat) : Nat → List Char → List Char
  | 0, s => s
  | _ + 1, [] => []
  | fuel + 1, c :: cs =>
    match m (c :: cs) with
    | some (n + 1) => scanRemove m fuel (cs.drop n)
    | _ => c :: scanRemove m fuel cs

/-- Global removal of every match found by the matcher, scanning left to
right, exactly once over the input. -/
def replaceScan (m : List Char → Option Nat) (s : List Char) : List Char :=
  scanRemove m s.length s

/-- Matcher for a fixed phrase, compared case-insensitively. -/
def matchPhrase (pat : List Char) (s : List Char) : Option Nat :=
  if startsWithCI pat s then some pat.length else none

/-- Removal of the whitespace at both ends of a string, as the JavaScript
trim method does. -/
def trimChars (s : List Char) : List Char :=
  ((s.dropWhile isSpaceChar).reverse.dropWhile isSpaceChar).reverse

/-! ## The input sanitizer (src/frontend/src/contexts/UserContext.tsx,
sanitizeInput, lines 152-170)

Each of the six chained replace calls of the source is embedded as one
matcher; the matchers implement the respective regular expressions, whose
greedy quantifiers are deterministic here (no backtracking can succeed, as
each quantified class excludes the character that must follow it). -/

/-- Matcher for the event-handler pattern on-word-spaces-equals, with the
two leading letters compared case-insensitively. -/
def matchOnEvent : List Char → Option Nat
  | c1 :: c2 :: rest =>
    if lowerC c1 == 'o' && lowerC c2 == 'n' then
      let w := countWhile isWordChar rest
      if w == 0 then none
      else
        let rest2 := rest.drop w
        let sp := countWhile isSpaceChar rest2
        match rest2.drop sp with
        | '=' :: _ => some (2 + w + sp + 1)
        | _ => none
    else none
  | _ => none

/-- Matcher for an opening tag of the given (lower-case) name followed by
a word boundary, any characters other than a closing angle bracket, and
the closing angle bracket. -/
def matchTagOpen (name : List Char) : List Char → Option Nat
  | '<' :: rest =>
    if startsWithCI name rest then
      let rest2 := rest.drop name.length
      match rest2 with
      | [] => none
      | c :: _ =>
        if isWordChar c then none
        else
          let m := countWhile (fun ch => ch != '>') rest2
          match rest2.drop m with
          | '>' :: _ => some (1 + name.length + m + 1)
          | _ => none
    else none
  | _ => none

/-- Body of the script-tag pattern after the opening tag name: any
characters other than an opening angle bracket, then repeatedly an
opening angle bracket that does not start the closing tag followed by
non-angle characters, then the literal closing tag.  The fuel argument is
the length of the remaining text; each step consumes at least one
character. -/
def scriptBody : Nat → List Char → Option Nat
  | 0, _ => none
  | fuel + 1, s =>
    let a := countWhile (fun ch => ch != '<') s
    let s2 := s.drop a
    if startsWithCI ("</script>".toList) s2 then some (a + 9)
    else
      match s2 with
      | _ :: rest => (scriptBody fuel rest).map (fun n => n + a + 1)
      | [] => none

/-- Matcher for a whole script element, from the opening tag to the
closing tag, with the tag names compared case-insensitively. -/
def matchScriptTag : List Char → Option Nat
  | '<' :: rest =>
    if startsWithCI ("script".toList) rest then
      let rest2 := rest.drop 6
      match rest2 with
      | [] => none
      | c :: _ =>
        if isWordChar c then none
        else (scriptBody rest2.length rest2).map (fun n => 7 + n)
    else none
  | _ => none

/-- Embedding of sanitizeInput (UserContext.tsx lines 152-170): remove
script elements, the javascript protocol marker, inline event handlers,
and iframe, object and embed opening tags, then trim the result.  Each
removal is one left-to-right global pass, as each replace call of the
source is. -/
def sanitizeInput (s : List Char) : List Char :=
  trimChars (
    replaceScan (matchTagOpen ("embed".toList)) (
    replaceScan (matchTagOpen ("object".toList)) (
    replaceScan (matchTagOpen ("iframe".toList)) (
    replaceScan matchOnEvent (
    replaceScan (matchPhrase ("javascript:".toList)) (
    replaceScan matchScriptTag s))))))

/-! ## The client-side rate limiter (UserContext.tsx lines 378-406) -/

/-- State of the RateLimiter class: the map from key to the list of
recorded request timestamps in milliseconds, with an absent key read as
the empty list, as the source reads the map with a default. -/
def RLState : Type := String → List Int

/-- Initial rate-limiter state: no requests recorded for any key. -/
def emptyRL : RLState := fun _ => []

/-- Embedding of RateLimiter.isAllowed (UserContext.tsx lines 381-401):
drop the timestamps at or before the window start, refuse without
touching the state when at least maxRequests timestamps remain, and
otherwise record the current time under the key and allow the call. -/
def isAllowed (key : String) (maxRequests : Nat) (windowMs now : Int)
    (st : RLState) : Bool × RLState :=
  let windowStart := now - windowMs
  let recentRequests := (st key).filter (fun time => windowStart < time)
  if maxRequests ≤ recentRequests.length then
    (false, st)
  else
    (true, fun k => if k = key then recentRequests ++ [now] else st k)

/-- Replay of a sequence of isAllowed calls, each given as a key and a
current time, with a fixed cap and window per key. -/
def runRL (caps : String → Nat) (wins : String → Int) :
    List (String × Int) → RLState → RLState
  | [], st => st
  | (k, t) :: rest, st => runRL caps wins rest (isAllowed k (caps k) (wins k) t st).snd

/-- Milliseconds in one day, for relating timestamps to calendar days. -/
def msPerDay : Int := 86400000

/-- Calendar-day key of a millisecond timestamp. -/
def dayKey (t : Int) : Int := t / msPerDay

/-! ## Rate-limiter lemmas -/

/-- One isAllowed call keeps every key at or below its cap, when each key
is called with its own fixed cap. -/
lemma isAllowed_preserves_caps (caps : String → Nat) (key : String) (w now : Int)
    (st : RLState) (h : ∀ k, (st k).length ≤ caps k) :
    ∀ k, (((isAllowed key (caps key) w now st).snd) k).length ≤ caps k := by
  intro k
  unfold isAllowed
  by_cases hle : caps key ≤ ((st key).filter (fun time => now - w < time)).length
  · simpa [hle] using h k
  · by_cases hk : k = key
    · subst hk
      simp [hle]
      omega
    · simpa [hle, hk] using h k

/-- Replaying any call sequence from a state within caps stays within
caps. -/
lemma runRL_preserves_caps (caps : String → Nat) (wins : String → Int) :
    ∀ (calls : List (String × Int)) (st : RLState),
      (∀ k, (st k).length ≤ caps k) →
      ∀ k, ((runRL caps wins calls st) k).length ≤ caps k := by
  intro calls
  induction calls with
  | nil => intro st h k; simpa [runRL] using h k
  | cons c rest ih =>
    intro st h k
    obtain ⟨ck, ct⟩ := c
    simp only [runRL]
    exact ih _ (isAllowed_preserves_caps caps ck (wins ck) ct st h) k

/-! ## Claims C3, C4 and C9 -/

/-- Claim C3, counterexample.  The claim states that after the cap is
reached, every further call with the same day key returns false, and only
a day-key change can make a call return true again.  In the code the
limiter is a sliding time window, not a day-keyed daily counter: with cap
1 and a 100 millisecond window, the call at time 0 is allowed, the call
at time 50 is refused, and the call at time 200 is allowed again although
time 0 and time 200 lie on the same calendar day. -/
theorem c3_counterexample :
    (isAllowed "chat" 1 100 0 emptyRL).fst = true ∧
    (isAllowed "chat" 1 100 50 (isAllowed "chat" 1 100 0 emptyRL).snd).fst = false ∧
    dayKey 0 = dayKey 200 ∧
    (isAllowed "chat" 1 100 200 (isAllowed "chat" 1 100 0 emptyRL).snd).fst = true := by
  decide

/-- Claim C3, amended.  An isAllowed call returns true exactly when fewer
than maxRequests recorded timestamps lie strictly inside the sliding
window of windowMs milliseconds before the current time; exhaustion
therefore ends as soon as enough old timestamps age out of the window,
not at a calendar day-key change. -/
theorem c3_sliding_window_characterisation (key : String) (maxRequests : Nat)
    (windowMs now : Int) (st : RLState) :
    (isAllowed key maxRequests windowMs now st).fst = true ↔
      ((st key).filter (fun time => now - windowMs < time)).length < maxRequests := by
  unfold isAllowed
  by_cases h : maxRequests ≤ ((st key).filter (fun time => now - windowMs < time)).length
  · simp [h]
  · simp [h]
    omega

/-- Claim C4: across any sequence of calls from the empty state, with a
fixed cap per key, the number of recorded timestamps of a key never
exceeds its cap; and a call that returns false leaves the whole state
unchanged. -/
theorem c4_cap_invariant_and_pure_refusal :
    (∀ (caps : String → Nat) (wins : String → Int) (calls : List (String × Int)) (k : String),
        ((runRL caps wins calls emptyRL) k).length ≤ caps k) ∧
    (∀ (key : String) (maxRequests : Nat) (windowMs now : Int) (st : RLState),
        (isAllowed key maxRequests windowMs now st).fst = false →
        (isAllowed key maxRequests windowMs now st).snd = st) := by
  constructor
  · intro caps wins calls k
    exact runRL_preserves_caps caps wins calls emptyRL (fun k => by simp [emptyRL]) k
  · intro key maxRequests windowMs now st h
    unfold isAllowed at h ⊢
    by_cases hle : maxRequests ≤ ((st key).filter (fun time => now - windowMs < time)).length
    · simp [hle]
    · simp [hle] at h

/-- Claim C4, witness: a refused call on a concrete exhausted state
returns that state unchanged. -/
theorem c4_witness :
    (isAllowed "chat" 1 100 50 (fun k => if k = "chat" then [(0 : Int)] else [])).snd
      = (fun k => if k = "chat" then [(0 : Int)] else []) :=
  c4_cap_invariant_and_pure_refusal.2 "chat" 1 100 50
    (fun k => if k = "chat" then [(0 : Int)] else []) (by decide)

/-! ## The Vani Persona identity-concealment filter

Modelled from the spec: the Python source backend/services/vani_persona.py
is not under src (only README_VANI_PERSONA.md is), so the filter is
modelled from the specification, section 4.5 step 5: scan the output for a
fixed list of self-disclosure phrase patterns, compared case-insensitively
as substrings, remove each matched phrase, then collapse the duplicate
punctuation and whitespace artifacts of removal.  The pattern list is the
one README_VANI_PERSONA.md states (lines 215-227). -/

/-- Apostrophe character, used inside several concealment patterns. -/
def apos : Char := '\''

/-- Concealment pattern list of README_VANI_PERSONA.md, in order. -/
def patAsAnAi : List Char := "as an ai".toList

/-- Concealment pattern: the contraction of i am, followed by an ai. -/
def patImAnAi : List Char := "i".toList ++ [apos] ++ "m an ai".toList

/-- Concealment pattern on being an artificial intelligence. -/
def patImAnArtificialIntelligence : List Char :=
  "i".toList ++ [apos] ++ "m an artificial intelligence".toList

/-- Concealment pattern on being a language model. -/
def patImALanguageModel : List Char := "i".toList ++ [apos] ++ "m a language model".toList

/-- Concealment pattern on being a computer program. -/
def patImAComputerProgram : List Char := "i".toList ++ [apos] ++ "m a computer program".toList

/-- Concealment pattern on not having feelings. -/
def patIDontHaveFeelings : List Char := "i don".toList ++ [apos] ++ "t have feelings".toList

/-- Concealment pattern on not having emotions. -/
def patIDontHaveEmotions : List Char := "i don".toList ++ [apos] ++ "t have emotions".toList

/-- Concealment pattern on being unable to feel. -/
def patICantFeel : List Char := "i can".toList ++ [apos] ++ "t feel".toList

/-- Concealment pattern on not being human. -/
def patImNotHuman : List Char := "i".toList ++ [apos] ++ "m not human".toList

/-- Concealment pattern on being just a; the README lists the phrase cut
at the article. -/
def patImJustA : List Char := "i".toList ++ [apos] ++ "m just a".toList

/-- Concealment pattern, as-a form of the language-model disclosure. -/
def patAsALanguageModel : List Char := "as a language model".toList

/-- Concealment pattern, as-an form of the artificial-intelligence
disclosure. -/
def patAsAnArtificialIntelligence : List Char := "as an artificial intelligence".toList

/-- The fixed self-disclosure phrase list, in README order. -/
def aiIdentityPatterns : List (List Char) :=
  [patAsAnAi, patImAnAi, patImAnArtificialIntelligence, patImALanguageModel,
   patImAComputerProgram, patIDontHaveFeelings, patIDontHaveEmotions, patICantFeel,
   patImNotHuman, patImJustA, patAsALanguageModel, patAsAnArtificialIntelligence]

/-- One single left-to-right removal pass of one pattern, matched
case-insensitively, as one substitution call of the modelled filter. -/
def removePhrase (pat s : List Char) : List Char :=
  replaceScan (matchPhrase pat) s

/-- Sequential removal of every pattern of the list, each in one pass. -/
def removeAllPhrases (s : List Char) : List Char :=
  aiIdentityPatterns.foldl (fun acc pat => removePhrase pat acc) s

/-- Characters whose duplicate runs the artifact cleanup collapses:
space and the sentence punctuation marks. -/
def isDupCollapsible (c : Char) : Bool :=
  c == ' ' || c == '.' || c == ',' || c == '!' || c == '?'

/-- Artifact cleanup: collapse every run of equal collapsible characters
to a single one. -/
def collapseDups : List Char → List Char
  | [] => []
  | [c] => [c]
  | c1 :: c2 :: cs =>
    if c1 == c2 && isDupCollapsible c1 then collapseDups (c2 :: cs)
    else c1 :: collapseDups (c2 :: cs)

/-- Test that no two adjacent equal collapsible characters occur, the
condition under which the artifact cleanup is the identity. -/
def noAdjacentDup : List Char → Bool
  | [] => true
  | [_] => true
  | c1 :: c2 :: cs => !(c1 == c2 && isDupCollapsible c1) && noAdjacentDup (c2 :: cs)

/-- Modelled from the spec: the identity-concealment filter of section
4.5 step 5 (the implementation file vani_persona.py is absent from src).
It removes each pattern in one pass, collapses duplicate artifacts, trims,
and records whether any removal changed the text. -/
def applyAiConcealment (raw : List Char) : List Char × Bool :=
  let removed := removeAllPhrases raw
  (trimChars (collapseDups removed), removed != raw)

/-! ## Substring lemmas for the concealment filter -/

/-- Case-insensitive prefix testing equals case-sensitive testing on the
lower-cased text. -/
lemma startsWithCI_eq (pat : List Char) :
    ∀ s : List Char, startsWithCI pat s = startsWithL pat (s.map lowerC) := by
  induction pat with
  | nil => intro s; rfl
  | cons p ps ih =>
    intro s
    cases s with
    | nil => rfl
    | cons c cs => simp [startsWithCI, startsWithL, ih]

/-- Case-insensitive containment equals case-sensitive containment in the
lower-cased text. -/
lemma containsCI_eq (pat : List Char) :
    ∀ s : List Char, containsCI s pat = containsL (s.map lowerC) pat := by
  intro s
  induction s with
  | nil => simp [containsCI, containsL, startsWithCI_eq]
  | cons c cs ih => simp [containsCI, containsL, startsWithCI_eq, ih]

/-- Prefix testing characterised by an existential decomposition. -/
lemma startsWithL_iff (pat : List Char) :
    ∀ s : List Char, startsWithL pat s = true ↔ ∃ r, s = pat ++ r := by
  induction pat with
  | nil => intro s; simp [startsWithL]
  | cons p ps ih =>
    intro s
    cases s with
    | nil => simp [startsWithL]
    | cons c cs =>
      simp only [startsWithL, Bool.and_eq_true, beq_iff_eq, ih, List.cons_append]
      constructor
      · rintro ⟨hc, r, hr⟩
        exact ⟨r, by rw [hc, hr]⟩
      · rintro ⟨r, hr⟩
        obtain ⟨h1, h2⟩ := List.cons.injEq .. ▸ hr
        exact ⟨h1, r, h2⟩

/-- Containment characterised by an existential decomposition. -/
lemma containsL_iff (pat : List Char) :
    ∀ s : List Char, containsL s pat = true ↔ ∃ l r, s = l ++ pat ++ r := by
  intro s
  induction s with
  | nil =>
    simp only [containsL, startsWithL_iff]
    constructor
    · rintro ⟨r, hr⟩
      exact ⟨[], r, by simpa using hr⟩
    · rintro ⟨l, r, hlr⟩
      have hl : l = [] ∧ pat ++ r = [] := by
        simpa [List.append_eq_nil] using hlr.symm
      exact ⟨r, by simp [hl.2]⟩
  | cons c cs ih =>
    simp only [containsL, Bool.or_eq_true, startsWithL_iff, ih]
    constructor
    · rintro (⟨r, hr⟩ | ⟨l, r, hlr⟩)
      · exact ⟨[], r, by simpa using hr⟩
      · exact ⟨c :: l, r, by simp [hlr]⟩
    · rintro ⟨l, r, hlr⟩
      cases l with
      | nil => exact Or.inl ⟨r, by simpa using hlr⟩
      | cons x xs =>
        right
        refine ⟨xs, r, ?_⟩
        have := hlr
        simp only [List.cons_append] at this
        exact (List.cons.injEq .. ▸ this).2

/-- Every list is its prefix dropped by dropWhile plus the rest. -/
lemma exists_prefix_dropWhile (p : Char → Bool) (l : List Char) :
    ∃ t, l = t ++ l.dropWhile p := by
  induction l with
  | nil => exact ⟨[], rfl⟩
  | cons c cs ih =>
    by_cases h : p c = true
    · obtain ⟨t, ht⟩ := ih
      refine ⟨c :: t, ?_⟩
      rw [List.dropWhile_cons, if_pos h, List.cons_append]
      exact congrArg (c :: ·) ht
    · refine ⟨[], ?_⟩
      rw [List.dropWhile_cons, if_neg h, List.nil_append]

/-- Trimming keeps a contiguous middle part of the text. -/
lemma trimChars_decomp (s : List Char) : ∃ t1 t2, s = t1 ++ trimChars s ++ t2 := by
  obtain ⟨t1, h1⟩ := exists_prefix_dropWhile isSpaceChar s
  obtain ⟨t2, h2⟩ := exists_prefix_dropWhile isSpaceChar (s.dropWhile isSpaceChar).reverse
  refine ⟨t1, t2.reverse, ?_⟩
  have h3 : s.dropWhile isSpaceChar = trimChars s ++ t2.reverse := by
    have h4 := congrArg List.reverse h2
    simpa [trimChars, List.reverse_append] using h4
  calc s = t1 ++ s.dropWhile isSpaceChar := h1
    _ = t1 ++ (trimChars s ++ t2.reverse) := by rw [h3]
    _ = t1 ++ trimChars s ++ t2.reverse := by rw [List.append_assoc]

/-- Containment in the trimmed text implies containment in the text. -/
lemma containsCI_of_trim (s pat : List Char)
    (h : containsCI (trimChars s) pat = true) : containsCI s pat = true := by
  rw [containsCI_eq] at h ⊢
  obtain ⟨t1, t2, hdecomp⟩ := trimChars_decomp s
  rw [containsL_iff] at h ⊢
  obtain ⟨l, r, hlr⟩ := h
  refine ⟨t1.map lowerC ++ l, r ++ t2.map lowerC, ?_⟩
  rw [hdecomp]
  simp [hlr]

/-- Trimming a text free of the pattern leaves it free of the pattern. -/
lemma containsCI_trim_false (s pat : List Char)
    (h : containsCI s pat = false) : containsCI (trimChars s) pat = false := by
  cases hc : containsCI (trimChars s) pat
  · rfl
  · exact absurd (containsCI_of_trim s pat hc) (by simp [h])

/-- One removal pass over a text free of the pattern is the identity, for
any fuel. -/
lemma scanRemove_matchPhrase_eq_self (pat : List Char) :
    ∀ (fuel : Nat) (s : List Char), containsCI s pat = false →
      scanRemove (matchPhrase pat) fuel s = s := by
  intro fuel
  induction fuel with
  | zero => intro s _; rfl
  | succ n ih =>
    intro s h
    cases s with
    | nil => rfl
    | cons c cs =>
      simp only [containsCI, Bool.or_eq_false_iff] at h
      obtain ⟨h1, h2⟩ := h
      simp only [scanRemove, matchPhrase, h1, if_false]
      exact congrArg (c :: ·) (ih cs h2)

/-- Sequentially removing patterns from a text free of all of them is the
identity. -/
lemma foldl_removePhrase_eq_self :
    ∀ (pats : List (List Char)) (s : List Char),
      (∀ p ∈ pats, containsCI s p = false) →
      pats.foldl (fun acc pat => removePhrase pat acc) s = s := by
  intro pats
  induction pats with
  | nil => intro s _; rfl
  | cons p ps ih =>
    intro s h
    have hp : removePhrase p s = s :=
      scanRemove_matchPhrase_eq_self p s.length s (h p (List.mem_cons_self p ps))
    rw [List.foldl_cons, hp]
    exact ih s (fun q hq => h q (List.mem_cons_of_mem _ hq))

/-- Artifact cleanup on a text with no adjacent collapsible duplicates is
the identity. -/
lemma collapseDups_eq_self : ∀ s : List Char, noAdjacentDup s = true → collapseDups s = s := by
  intro s
  induction s with
  | nil => intro _; rfl
  | cons c1 rest ih =>
    cases rest with
    | nil => intro _; rfl
    | cons c2 cs =>
      intro h
      simp only [noAdjacentDup, Bool.and_eq_true, Bool.not_eq_eq_eq_not, Bool.not_true] at h
      obtain ⟨h1, h2⟩ := h
      simp only [collapseDups, h1, if_false]
      exact congrArg (c1 :: ·) (ih h2)

/-! ## Claim C2 -/

/-- Claim C2, counterexample.  The claim states that the filtered output
never contains a concealment phrase.  Removal is a single pass per
pattern, so deleting one occurrence can splice the surrounding text into
a new occurrence: the raw text as-as-an-aian-ai filters to exactly the
phrase as-an-ai. -/
theorem c2_counterexample :
    (applyAiConcealment ("as as an aian ai".toList)).fst = ("as an ai".toList) ∧
    containsCI (applyAiConcealment ("as as an aian ai".toList)).fst patAsAnAi = true := by
  decide

/-- Claim C2, amended.  The output guarantee holds for every raw text in
which no removal or duplicate collapse can splice a new occurrence
together: if the raw text contains none of the self-disclosure phrases
case-insensitively and has no adjacent collapsible duplicates, then the
filtered output contains none of the phrases.  In general a removal can
recreate a phrase, as the counterexample shows. -/
theorem c2_concealment_amended (raw : List Char)
    (h1 : ∀ pat ∈ aiIdentityPatterns, containsCI raw pat = false)
    (h2 : noAdjacentDup raw = true) :
    ∀ pat ∈ aiIdentityPatterns, containsCI (applyAiConcealment raw).fst pat = false := by
  intro pat hpat
  have hrem : removeAllPhrases raw = raw := foldl_removePhrase_eq_self _ raw h1
  have hfst : (applyAiConcealment raw).fst = trimChars raw := by
    simp [applyAiConcealment, hrem, collapseDups_eq_self raw h2]
  rw [hfst]
  exact containsCI_trim_false raw pat (h1 pat hpat)

/-- Claim C2, witness: a concrete clean raw text stays free of the first
concealment phrase after filtering. -/
theorem c2_witness :
    containsCI (applyAiConcealment ("hello there".toList)).fst patAsAnAi = false :=
  c2_concealment_amended ("hello there".toList) (by decide) (by decide) patAsAnAi (by decide)

/-- Claim C9.  The claim states that sanitizeInput output never contains
the javascript protocol marker case-insensitively.  The removal pass is
single, so deleting one occurrence can splice the surrounding text into a
new occurrence: the input jjavascript:avascript: sanitizes to exactly
javascript:, which the sanitizer comments document as removed.  This
evaluates the embedded code at the failing input. -/
theorem c9_sanitize_recreates_pattern :
    sanitizeInput ("jjavascript:avascript:".toList) = ("javascript:".toList) ∧
    containsCI (sanitizeInput ("jjavascript:avascript:".toList)) ("javascript:".toList) = true := by
  decide

/-! ## The Knowledge Vault fact store

Modelled from the spec: the Python source backend/services/knowledge_vault.py
is not under src (only README_KNOWLEDGE_VAULT.md is).  The Fact record
follows the dataclass of README_KNOWLEDGE_VAULT.md lines 39-51; retrieval
follows section 4.3 of the specification: embed the query, perform the
nearest-neighbour search restricted to the given user, and return up to
top-k facts ordered by decreasing similarity with ties broken by the most
recent timestamp first. -/

/-- The Fact record of the Knowledge Vault.  Timestamps are modelled as
natural numbers and the embedding as a rational vector. -/
structure Fact where
  id : String
  user_id : String
  entity : String
  relation : String
  attr : String
  value : String
  context : String
  timestamp : Nat
  embedding : List ℚ
deriving DecidableEq

/-- Accessor named after the source field of the Fact dataclass; the
field itself is called attr here because the source name is a reserved
word in Lean. -/
def Fact.attributeName (f : Fact) : String := f.attr

/-- Ranking order of retrieval: strictly greater similarity first, ties
broken by the more recent timestamp. -/
def rankBefore (score : Fact → ℚ) (f g : Fact) : Bool :=
  decide (score g < score f ∨ (score f = score g ∧ g.timestamp ≤ f.timestamp))

/-- Insertion step of the ranking sort. -/
def insertFact (score : Fact → ℚ) (f : Fact) : List Fact → List Fact
  | [] => [f]
  | g :: gs => if rankBefore score f g then f :: g :: gs else g :: insertFact score f gs

/-- Insertion sort of facts by the ranking order. -/
def sortFactsByRank (score : Fact → ℚ) : List Fact → List Fact
  | [] => []
  | f :: fs => insertFact score f (sortFactsByRank score fs)

/-- Modelled from the spec: retrieve_context of the Knowledge Vault
(section 4.3; README_KNOWLEDGE_VAULT.md lines 96-111).  The similarity
function and the embedding function are the external collaborators of the
specification, passed as parameters; the search is restricted to the
facts of the given user before ranking. -/
def retrieveContext (embed : List Char → List ℚ) (sim : List ℚ → List ℚ → ℚ)
    (query : List Char) (user_id : String) (top_k : Nat) (facts : List Fact) :
    List Fact :=
  let q := embed query
  let userFacts := facts.filter (fun f => f.user_id == user_id)
  (sortFactsByRank (fun f => sim q f.embedding) userFacts).take top_k

/-- Membership through the insertion step. -/
lemma mem_insertFact (score : Fact → ℚ) (f x : Fact) :
    ∀ l : List Fact, x ∈ insertFact score f l → x = f ∨ x ∈ l := by
  intro l
  induction l with
  | nil => intro h; simpa [insertFact] using h
  | cons g gs ih =>
    intro h
    simp only [insertFact] at h
    by_cases hr : rankBefore score f g = true
    · rw [if_pos hr] at h
      rcases List.mem_cons.mp h with h1 | h2
      · exact Or.inl h1
      · exact Or.inr h2
    · rw [if_neg hr] at h
      rcases List.mem_cons.mp h with h1 | h2
      · exact Or.inr (List.mem_cons.mpr (Or.inl h1))
      · rcases ih h2 with h3 | h4
        · exact Or.inl h3
        · exact Or.inr (List.mem_cons.mpr (Or.inr h4))

/-- Membership is preserved downwards by the ranking sort. -/
lemma mem_sortFactsByRank (score : Fact → ℚ) (x : Fact) :
    ∀ l : List Fact, x ∈ sortFactsByRank score l → x ∈ l := by
  intro l
  induction l with
  | nil => intro h; simp [sortFactsByRank] at h
  | cons f fs ih =>
    intro h
    simp only [sortFactsByRank] at h
    rcases mem_insertFact score f x _ h with h1 | h2
    · exact h1 ▸ List.mem_cons_self f fs
    · exact List.mem_cons.mpr (Or.inr (ih h2))

/-- Claim C1: retrieval is hard-partitioned by user.  Every fact of the
result of retrieveContext for user B carries user identifier B, and for
any distinct user A no returned fact belongs to A, for every embedding
and similarity collaborator, query, top-k and store. -/
theorem c1_retrieval_user_partition (embed : List Char → List ℚ)
    (sim : List ℚ → List ℚ → ℚ) (query : List Char) (A B : String) (top_k : Nat)
    (facts : List Fact) (f : Fact) (hAB : A ≠ B)
    (hf : f ∈ retrieveContext embed sim query B top_k facts) :
    f.user_id = B ∧ f.user_id ≠ A := by
  have hmem : f ∈ (facts.filter (fun g => g.user_id == B)) := by
    have h1 := List.mem_of_mem_take hf
    exact mem_sortFactsByRank _ f _ h1
  have hB : f.user_id = B := by
    have := (List.mem_filter.mp hmem).2
    simpa using this
  exact ⟨hB, fun hA => hAB (hA ▸ hB)⟩

/-- Claim C1, witness: with a concrete two-user store, retrieval for the
second user returns a fact that belongs to the second user and not to the
first. -/
theorem c1_witness :
    (⟨"f2", "bob", "Rahul", "friend", "occupation", "dancer",
        "My friend Rahul is a dancer", 2, [1]⟩ : Fact).user_id = "bob" ∧
    (⟨"f2", "bob", "Rahul", "friend", "occupation", "dancer",
        "My friend Rahul is a dancer", 2, [1]⟩ : Fact).user_id ≠ "alice" :=
  c1_retrieval_user_partition (fun _ => [1]) (fun _ _ => 0) ("Rahul".toList)
    "alice" "bob" 5
    [⟨"f1", "alice", "Mom", "family", "health", "recovering",
        "My mom is recovering", 1, [1]⟩,
     ⟨"f2", "bob", "Rahul", "friend", "occupation", "dancer",
        "My friend Rahul is a dancer", 2, [1]⟩]
    ⟨"f2", "bob", "Rahul", "friend", "occupation", "dancer",
        "My friend Rahul is a dancer", 2, [1]⟩
    (by decide) (by decide)

/-! ## The Polyglot Engine language identifier

Modelled from the spec: the Python source backend/services/polyglot_engine.py
is not under src (only README_POLYGLOT_ENGINE.md is).  The enumeration,
the result record, the Unicode ranges (README lines 34-38), the two-stage
strategy and the threshold follow the specification section 4.1 and the
README.  Confidences are modelled in integer hundredths (95 stands for
0.95, the threshold 70 for 0.7), and the threshold fraction of characters
by a cross-multiplied comparison, so that every statement stays decidable
by kernel evaluation. -/

/-- Closed language enumeration of the Polyglot Engine. -/
inductive Language where
  | english
  | kannada
  | telugu
  | unknown
deriving DecidableEq

/-- Detection method tag of the result record. -/
inductive DetectMethod where
  | unicode
  | llm
deriving DecidableEq

/-- Result record of one detection stage; confidence in hundredths. -/
structure LanguageDetectionResult where
  language : Language
  confidence : Nat
  detected_by : DetectMethod
deriving DecidableEq

/-- Confidence threshold (0.7, in hundredths) below which the next stage
is consulted. -/
def CONFIDENCE_THRESHOLD : Nat := 70

/-- Fixed near-certain confidence (0.95) for a recognised native script. -/
def NATIVE_SCRIPT_CONFIDENCE : Nat := 95

/-- Lower heuristic confidence (0.6) for Latin-dominated text. -/
def LATIN_HEURISTIC_CONFIDENCE : Nat := 60

/-- Numerator of the script fraction threshold seven tenths. -/
def SCRIPT_THRESHOLD_NUM : Nat := 7

/-- Denominator of the script fraction threshold seven tenths. -/
def SCRIPT_THRESHOLD_DEN : Nat := 10

/-- Kannada block U+0C80 to U+0CFF. -/
def isKannadaChar (c : Char) : Bool := decide (0x0C80 ≤ c.toNat ∧ c.toNat ≤ 0x0CFF)

/-- Telugu block U+0C00 to U+0C7F. -/
def isTeluguChar (c : Char) : Bool := decide (0x0C00 ≤ c.toNat ∧ c.toNat ≤ 0x0C7F)

/-- ASCII block, the default-language script. -/
def isAsciiChar (c : Char) : Bool := decide (c.toNat ≤ 0x7F)

/-- Characters counted by the script statistics: everything except
whitespace. -/
def nonSpace (text : List Char) : List Char := text.filter (fun c => !(isSpaceChar c))

/-- Does at least the threshold fraction of counted characters lie in the
given script class: the comparison seven times the total at most ten
times the count states that count over total reaches seven tenths. -/
def scriptFractionReached (p : Char → Bool) (text : List Char) : Bool :=
  decide (SCRIPT_THRESHOLD_NUM * (nonSpace text).length
    ≤ SCRIPT_THRESHOLD_DEN * ((nonSpace text).filter p).length)

/-- Modelled from the spec: stage one of detection, by Unicode ranges
(specification 4.1 step 1, README_POLYGLOT_ENGINE.md lines 34-38 and
169-175). -/
def detectByUnicode (text : List Char) : LanguageDetectionResult :=
  if (nonSpace text).length = 0 then
    ⟨Language.unknown, 0, DetectMethod.unicode⟩
  else if scriptFractionReached isKannadaChar text then
    ⟨Language.kannada, NATIVE_SCRIPT_CONFIDENCE, DetectMethod.unicode⟩
  else if scriptFractionReached isTeluguChar text then
    ⟨Language.telugu, NATIVE_SCRIPT_CONFIDENCE, DetectMethod.unicode⟩
  else if scriptFractionReached isAsciiChar text then
    ⟨Language.english, LATIN_HEURISTIC_CONFIDENCE, DetectMethod.unicode⟩
  else
    ⟨Language.unknown, 0, DetectMethod.unicode⟩

/-- Modelled from the spec: detect_language (specification 4.1, README
lines 112-132 and 183-189).  The stage-two generation-service call is the
external collaborator, passed as an optional result whose absence models
a failed call; empty input returns the default language; a reached
fallback that failed or stayed below the threshold yields the default
language with confidence 0.  The function is total: it always returns a
value and cannot raise. -/
def detectLanguage (text : List Char)
    (fallback : Option LanguageDetectionResult) : Language × Nat :=
  if text.isEmpty then (Language.english, 0)
  else
    let r := detectByUnicode text
    if CONFIDENCE_THRESHOLD ≤ r.confidence then (r.language, r.confidence)
    else
      match fallback with
      | some s =>
        if CONFIDENCE_THRESHOLD ≤ s.confidence then (s.language, s.confidence)
        else (Language.english, 0)
      | none => (Language.english, 0)

/-- Kannada characters are not whitespace. -/
lemma kannada_not_space (c : Char) (h : isKannadaChar c = true) : isSpaceChar c = false := by
  simp only [isKannadaChar, decide_eq_true_eq] at h
  simp only [isSpaceChar, Bool.or_eq_false_iff, beq_eq_false_iff_ne, ne_eq]
  refine ⟨⟨⟨⟨⟨?_, ?_⟩, ?_⟩, ?_⟩, ?_⟩, ?_⟩ <;>
    (intro he; subst he; exact absurd h (by decide))

/-- Telugu characters are not whitespace. -/
lemma telugu_not_space (c : Char) (h : isTeluguChar c = true) : isSpaceChar c = false := by
  simp only [isTeluguChar, decide_eq_true_eq] at h
  simp only [isSpaceChar, Bool.or_eq_false_iff, beq_eq_false_iff_ne, ne_eq]
  refine ⟨⟨⟨⟨⟨?_, ?_⟩, ?_⟩, ?_⟩, ?_⟩, ?_⟩ <;>
    (intro he; subst he; exact absurd h (by decide))

/-- Telugu characters are outside the Kannada block. -/
lemma telugu_not_kannada (c : Char) (h : isTeluguChar c = true) : isKannadaChar c = false := by
  simp only [isTeluguChar, decide_eq_true_eq] at h
  simp only [isKannadaChar, decide_eq_false_iff_not]
  omega

/-- Claim C5: for every input, detection returns a value (the embedding
is a total function); in particular, whenever stage two is reached and
the fallback call failed or reported confidence below the threshold, the
result is the default language English with confidence 0. -/
theorem c5_detect_defaults_to_english (text : List Char)
    (fb : Option LanguageDetectionResult) (hne : text ≠ [])
    (h1 : (detectByUnicode text).confidence < CONFIDENCE_THRESHOLD)
    (h2 : fb = none ∨ ∃ s, fb = some s ∧ s.confidence < CONFIDENCE_THRESHOLD) :
    detectLanguage text fb = (Language.english, 0) := by
  have hie : text.isEmpty = false := by
    cases text with
    | nil => exact absurd rfl hne
    | cons c cs => rfl
  unfold detectLanguage
  rw [hie]
  simp only [Bool.false_eq_true, if_false]
  rw [if_neg (not_le.mpr h1)]
  rcases h2 with h2 | ⟨s, hs, hlt⟩
  · rw [h2]
  · rw [hs]
    exact if_neg (not_le.mpr hlt)

/-- Claim C5, witness: Latin text gets heuristic stage-one confidence
below the threshold, and with a failed fallback the result is English
with confidence 0. -/
theorem c5_witness : detectLanguage ("zzzz".toList) none = (Language.english, 0) :=
  c5_detect_defaults_to_english ("zzzz".toList) none (by decide) (by decide)
    (Or.inl rfl)

/-- Claim C6: every nonempty text purely of one native script is decided
at stage one with the near-certain confidence of at least 0.9 (90
hundredths), with the unicode method tag, independently of any fallback
collaborator. -/
theorem c6_native_script_stage_one (text : List Char)
    (fb : Option LanguageDetectionResult) (hne : text ≠ []) :
    ((∀ c ∈ text, isKannadaChar c = true) →
      detectByUnicode text
          = ⟨Language.kannada, NATIVE_SCRIPT_CONFIDENCE, DetectMethod.unicode⟩ ∧
      90 ≤ NATIVE_SCRIPT_CONFIDENCE ∧
      detectLanguage text fb = (Language.kannada, NATIVE_SCRIPT_CONFIDENCE) ∧
      detectLanguage text fb = detectLanguage text none) ∧
    ((∀ c ∈ text, isTeluguChar c = true) →
      detectByUnicode text
          = ⟨Language.telugu, NATIVE_SCRIPT_CONFIDENCE, DetectMethod.unicode⟩ ∧
      90 ≤ NATIVE_SCRIPT_CONFIDENCE ∧
      detectLanguage text fb = (Language.telugu, NATIVE_SCRIPT_CONFIDENCE) ∧
      detectLanguage text fb = detectLanguage text none) := by
  have hie : text.isEmpty = false := by
    cases text with
    | nil => exact absurd rfl hne
    | cons c cs => rfl
  have hlen : text.length ≠ 0 := by
    cases text with
    | nil => exact absurd rfl hne
    | cons c cs => simp
  constructor
  · intro hall
    have hns : nonSpace text = text := by
      unfold nonSpace
      rw [List.filter_eq_self]
      intro c hc
      rw [kannada_not_space c (hall c hc)]
      rfl
    have hkn : text.filter isKannadaChar = text := List.filter_eq_self.mpr hall
    have hcond : scriptFractionReached isKannadaChar text = true := by
      unfold scriptFractionReached
      rw [hns, hkn]
      simp only [SCRIPT_THRESHOLD_NUM, SCRIPT_THRESHOLD_DEN, decide_eq_true_eq]
      omega
    have hdu : detectByUnicode text
        = ⟨Language.kannada, NATIVE_SCRIPT_CONFIDENCE, DetectMethod.unicode⟩ := by
      unfold detectByUnicode
      rw [if_neg (by rw [hns]; exact hlen), if_pos hcond]
    have hdl : ∀ g : Option LanguageDetectionResult,
        detectLanguage text g = (Language.kannada, NATIVE_SCRIPT_CONFIDENCE) := by
      intro g
      unfold detectLanguage
      rw [hie]
      simp only [Bool.false_eq_true, if_false, hdu]
      rw [if_pos (by norm_num [CONFIDENCE_THRESHOLD, NATIVE_SCRIPT_CONFIDENCE])]
    exact ⟨hdu, by norm_num [NATIVE_SCRIPT_CONFIDENCE], hdl fb, (hdl fb).trans (hdl none).symm⟩
  · intro hall
    have hns : nonSpace text = text := by
      unfold nonSpace
      rw [List.filter_eq_self]
      intro c hc
      rw [telugu_not_space c (hall c hc)]
      rfl
    have hte : text.filter isTeluguChar = text := List.filter_eq_self.mpr hall
    have hknnil : text.filter isKannadaChar = [] := by
      rw [List.filter_eq_nil_iff]
      intro c hc
      simp [telugu_not_kannada c (hall c hc)]
    have hcondk : scriptFractionReached isKannadaChar text = false := by
      unfold scriptFractionReached
      rw [hns, hknnil]
      simp only [SCRIPT_THRESHOLD_NUM, SCRIPT_THRESHOLD_DEN, List.length_nil,
        decide_eq_false_iff_not]
      omega
    have hcondt : scriptFractionReached isTeluguChar text = true := by
      unfold scriptFractionReached
      rw [hns, hte]
      simp only [SCRIPT_THRESHOLD_NUM, SCRIPT_THRESHOLD_DEN, decide_eq_true_eq]
      omega
    have hdu : detectByUnicode text
        = ⟨Language.telugu, NATIVE_SCRIPT_CONFIDENCE, DetectMethod.unicode⟩ := by
      unfold detectByUnicode
      rw [if_neg (by rw [hns]; exact hlen), if_neg (by rw [hcondk]; exact Bool.false_ne_true),
        if_pos hcondt]
    have hdl : ∀ g : Option LanguageDetectionResult,
        detectLanguage text g = (Language.telugu, NATIVE_SCRIPT_CONFIDENCE) := by
      intro g
      unfold detectLanguage
      rw [hie]
      simp only [Bool.false_eq_true, if_false, hdu]
      rw [if_pos (by norm_num [CONFIDENCE_THRESHOLD, NATIVE_SCRIPT_CONFIDENCE])]
    exact ⟨hdu, by norm_num [NATIVE_SCRIPT_CONFIDENCE], hdl fb, (hdl fb).trans (hdl none).symm⟩

/-- Claim C6, witness: the Kannada greeting of the README scenario is
decided at stage one, even with a contradictory fallback present. -/
theorem c6_witness :
    detectLanguage ("ನಮಸ್ಕಾರ".toList) (some ⟨Language.english, 100, DetectMethod.llm⟩)
      = (Language.kannada, NATIVE_SCRIPT_CONFIDENCE) :=
  ((c6_native_script_stage_one ("ನಮಸ್ಕಾರ".toList)
      (some ⟨Language.english, 100, DetectMethod.llm⟩) (by decide)).1 (by decide)).2.2.1

/-! ## The Quota Governor and the Fact Extractor

Modelled from the spec: the backend Quota Governor and the fact
extraction entry point of the Knowledge Vault are not under src.  The
counter follows specification section 4.2 (day-keyed lazy reset, atomic
check-and-increment), and extract_facts follows section 4.4 with
README_KNOWLEDGE_VAULT.md lines 78-94: one heavy-tier unit is consumed
before the generation-service call and, when the tier is exhausted, the
empty list is returned immediately with no service call. -/

/-- Day-keyed per-tier counter of the Quota Governor. -/
structure QuotaCounter where
  count : Nat
  day : Nat
deriving DecidableEq

/-- Modelled from the spec: try_consume of section 4.2.  The rollover
check first compares the stored day key with the current day and lazily
resets, then the call checks against the cap and increments, returning
false without incrementing when the tier is exhausted. -/
def tryConsume (cap : Nat) (today : Nat) (q : QuotaCounter) : Bool × QuotaCounter :=
  let q2 := if q.day = today then q else ⟨0, today⟩
  if cap ≤ q2.count then (false, q2)
  else (true, ⟨q2.count + 1, today⟩)

/-- Structured tuple shape of the extraction output contract. -/
structure FactTuple where
  entity : String
  relation : String
  attr : String
  value : String
deriving DecidableEq

/-- Construction of a Fact from one parsed tuple: fresh identifier,
current timestamp, originating message as context, embedding attached
later by the store. -/
def mkFactFromTuple (user_id freshId : String) (ts : Nat) (message : String)
    (t : FactTuple) : Fact :=
  ⟨freshId, user_id, t.entity, t.relation, t.attr, t.value, message, ts, []⟩

/-- Modelled from the spec: extract_facts of section 4.4.  The generation
service is the external collaborator, modelled as an optional parsed
tuple list whose absence covers both a failed call and malformed output.
The last component of the result records whether the generation service
was called. -/
def extractFacts (cap today : Nat) (q : QuotaCounter)
    (svc : Option (List FactTuple)) (user_id : String) (message : String)
    (freshIds : Nat → String) (ts : Nat) :
    List Fact × QuotaCounter × Bool :=
  let res := tryConsume cap today q
  if res.fst then
    match svc with
    | none => ([], res.snd, true)
    | some tuples =>
      ((List.range tuples.length).zip tuples |>.map
        (fun p => mkFactFromTuple user_id (freshIds p.fst) ts message p.snd),
       res.snd, true)
  else ([], res.snd, false)

/-- Claim C7: when the heavy tier is exhausted at call time, extraction
returns the empty list immediately and does not call the generation
service, whatever the service would have answered. -/
theorem c7_exhausted_tier_skips_service (cap today : Nat) (q : QuotaCounter)
    (svc : Option (List FactTuple)) (user_id message : String)
    (freshIds : Nat → String) (ts : Nat)
    (h : (tryConsume cap today q).fst = false) :
    extractFacts cap today q svc user_id message freshIds ts
      = ([], (tryConsume cap today q).snd, false) := by
  simp [extractFacts, h]

/-- Claim C7, witness: with cap one already consumed today, extraction
returns no facts and no service call, although the service had an answer
ready. -/
theorem c7_witness :
    extractFacts 1 5 ⟨1, 5⟩ (some [⟨"Rahul", "friend", "occupation", "dancer"⟩])
        "user_123" "My friend Rahul is a dancer" (fun _ => "fact_1") 9
      = ([], ⟨1, 5⟩, false) :=
  c7_exhausted_tier_skips_service 1 5 ⟨1, 5⟩
    (some [⟨"Rahul", "friend", "occupation", "dancer"⟩])
    "user_123" "My friend Rahul is a dancer" (fun _ => "fact_1") 9 (by decide)

/-! ## The frontend conversation context (src/unnamed/part_002) -/

/-- Message role union of the source. -/
inductive Role where
  | user
  | assistant
deriving DecidableEq

/-- Interface union of the source. -/
inductive InterfaceType where
  | web
  | telegram
  | whatsapp
deriving DecidableEq

/-- Message type union of the source. -/
inductive MessageType where
  | text
  | voice
  | grammarCheck
deriving DecidableEq

/-- The Message record of part_002 lines 8-21, with the optional metadata
reduced to its interface tag. -/
structure Message where
  id : String
  conversationId : String
  role : Role
  content : String
  language : Option String
  messageType : MessageType
  timestamp : String
  metadata : Option InterfaceType
deriving DecidableEq

/-- The Conversation record of part_002 lines 23-30. -/
structure Conversation where
  id : String
  userId : String
  startedAt : String
  endedAt : Option String
  interface : InterfaceType
  messages : List Message
deriving DecidableEq

/-- The provider state relevant to addMessage: the current conversation
and the flat message list. -/
structure ConvState where
  currentConversation : Option Conversation
  messages : List Message
deriving DecidableEq

/-- Input of addMessage: a Message without identifier and timestamp
(part_002 line 39). -/
structure MessageInput where
  conversationId : String
  role : Role
  content : String
  language : Option String
  messageType : MessageType
  metadata : Option InterfaceType
deriving DecidableEq

/-- The new Message built by addMessage from its input, with the freshly
generated identifier and the current timestamp passed explicitly. -/
def mkMessage (input : MessageInput) (freshId ts : String) : Message :=
  ⟨freshId, input.conversationId, input.role, input.content, input.language,
   input.messageType, ts, input.metadata⟩

/-- Embedding of addMessage (part_002 lines 82-101): append the new
message to the flat list, and, when a current conversation exists, append
it to that conversation's message list, leaving its other fields
untouched. -/
def addMessage (input : MessageInput) (freshId ts : String) (s : ConvState) : ConvState :=
  let newMessage := mkMessage input freshId ts
  { currentConversation :=
      match s.currentConversation with
      | none => none
      | some c => some { c with messages := c.messages ++ [newMessage] }
    messages := s.messages ++ [newMessage] }

/-- Server-side message record read back by the history endpoint; the
persistence layer itself is an external collaborator (specification
section 6). -/
structure StoredMessage where
  id : String
  role : Role
  content : String
  language : Option String
  messageType : MessageType
  timestamp : String
  metadata : Option InterfaceType
deriving DecidableEq

/-- Modelled from the spec: the message persistence collaborator of
section 6 is an append-only store with ordered read, so appending is list
append at the end. -/
def appendStore (store : List StoredMessage) (m : StoredMessage) : List StoredMessage :=
  store ++ [m]

/-- Embedding of the response mapping of loadConversationHistory
(part_002 lines 141-150): each server message maps to a Message with the
same role and content (and the other fields carried over), in response
order. -/
def loadConversationHistory (conversationId : String)
    (msgs : List StoredMessage) : List Message :=
  msgs.map (fun m =>
    ⟨m.id, conversationId, m.role, m.content, m.language, m.messageType,
     m.timestamp, m.metadata⟩)

/-- Appending a list of messages one by one is appending the list. -/
lemma foldl_appendStore (msgs : List StoredMessage) :
    ∀ acc : List StoredMessage, msgs.foldl appendStore acc = acc ++ msgs := by
  induction msgs with
  | nil => intro acc; simp [List.foldl_nil]
  | cons m rest ih =>
    intro acc
    rw [List.foldl_cons]
    rw [ih (appendStore acc m)]
    simp [appendStore]

/-- Claim C8: messages appended to a conversation and read back through
the history load keep their role, their content and their relative
order. -/
theorem c8_history_roundtrip (conversationId : String) (msgs : List StoredMessage) :
    (loadConversationHistory conversationId (msgs.foldl appendStore [])).map
        (fun m => (m.role, m.content))
      = msgs.map (fun m => (m.role, m.content)) := by
  rw [foldl_appendStore msgs []]
  unfold loadConversationHistory
  rw [List.map_map]
  simp

/-- Claim C10: addMessage with a current conversation present appends
exactly one message, built from its input with the same role and content,
at the end of the conversation's message list, keeps every previously
stored message at its position, and leaves the identifier, user, start
and end times and interface of the conversation unchanged. -/
theorem c10_addMessage_frame (input : MessageInput) (freshId ts : String)
    (s : ConvState) (c : Conversation) (h : s.currentConversation = some c) :
    ∃ c2 : Conversation,
      (addMessage input freshId ts s).currentConversation = some c2 ∧
      c2.messages = c.messages ++ [mkMessage input freshId ts] ∧
      c2.messages.take c.messages.length = c.messages ∧
      c2.messages.length = c.messages.length + 1 ∧
      (mkMessage input freshId ts).role = input.role ∧
      (mkMessage input freshId ts).content = input.content ∧
      c2.id = c.id ∧ c2.userId = c.userId ∧ c2.startedAt = c.startedAt ∧
      c2.endedAt = c.endedAt ∧ c2.interface = c.interface := by
  refine ⟨{ c with messages := c.messages ++ [mkMessage input freshId ts] }, ?_, rfl,
    List.take_left c.messages _, by simp, rfl, rfl, rfl, rfl, rfl, rfl, rfl⟩
  unfold addMessage
  rw [h]

/-- Claim C10, witness: a concrete state with one stored message gains
exactly the new message at the end, all other conversation fields
unchanged. -/
theorem c10_witness :
    ∃ c2 : Conversation,
      (addMessage ⟨"conv_1", Role.user, "hello", none, MessageType.text, none⟩
          "msg_2" "t2"
          ⟨some ⟨"conv_1", "user_123", "t0", none, InterfaceType.web,
            [⟨"msg_1", "conv_1", Role.assistant, "hi", none, MessageType.text, "t1", none⟩]⟩,
           [⟨"msg_1", "conv_1", Role.assistant, "hi", none, MessageType.text, "t1", none⟩]⟩).currentConversation
        = some c2 ∧
      c2.messages
        = [⟨"msg_1", "conv_1", Role.assistant, "hi", none, MessageType.text, "t1", none⟩]
            ++ [mkMessage ⟨"conv_1", Role.user, "hello", none, MessageType.text, none⟩ "msg_2" "t2"] ∧
      c2.messages.take 1
        = [⟨"msg_1", "conv_1", Role.assistant, "hi", none, MessageType.text, "t1", none⟩] ∧
      c2.messages.length = 1 + 1 ∧
      (mkMessage ⟨"conv_1", Role.user, "hello", none, MessageType.text, none⟩ "msg_2" "t2").role
        = Role.user ∧
      (mkMessage ⟨"conv_1", Role.user, "hello", none, MessageType.text, none⟩ "msg_2" "t2").content
        = "hello" ∧
      c2.id = "conv_1" ∧ c2.userId = "user_123" ∧ c2.startedAt = "t0" ∧
      c2.endedAt = none ∧ c2.interface = InterfaceType.web :=
  c10_addMessage_frame ⟨"conv_1", Role.user, "hello", none, MessageType.text, none⟩
    "msg_2" "t2"
    ⟨some ⟨"conv_1", "user_123", "t0", none, InterfaceType.web,
      [⟨"msg_1", "conv_1", Role.assistant, "hi", none, MessageType.text, "t1", none⟩]⟩,
     [⟨"msg_1", "conv_1", Role.assistant, "hi", none, MessageType.text, "t1", none⟩]⟩
    ⟨"conv_1", "user_123", "t0", none, InterfaceType.web,
      [⟨"msg_1", "conv_1", Role.assistant, "hi", none, MessageType.text, "t1", none⟩]⟩
    rfl

end Keliva
